import Mathlib

/-!
Verification of the elasticsearch-mcp query/analysis engine.

Shallow embedding of the service layer (`src/services/elasticsearchService.ts`),
the configuration manager (`src/config/configManager.ts`), and the MCP tool
handlers (`src/elasticsearch-mcp-tools/`).  Timestamps are modelled as integer
milliseconds since the epoch; the ISO-format rendering of a computed instant is
kept abstract (`TimeVal.instant`), while verbatim caller-supplied bounds stay
strings (`TimeVal.verbatim`), exactly as the code forwards them.
-/

/-- Math.trunc on a rational, as used by date-fns v2 `toInteger`. -/
def jsMathTrunc (q : ℚ) : Int :=
  if q < 0 then -(-q).floor else q.floor

/-- date-fns v2 `subDays(date, amount)`: the amount is truncated to an integer
number of days (`toInteger`) before subtraction.  One day is 86400000 ms. -/
def subDaysMs (nowMs : Int) (amount : ℚ) : Int :=
  nowMs - jsMathTrunc amount * 86400000

/-- A bound of an Elasticsearch range filter on the timestamp field: either a
caller-supplied string used verbatim, or an instant computed from the clock. -/
inductive TimeVal
  | verbatim (s : String)
  | instant (ms : Int)
deriving DecidableEq

/-- The range filter pushed on the timestamp field: a lower bound, and an
optional upper bound (several code paths omit `lte`). -/
structure TimeRangeFilter where
  gte : TimeVal
  lte : Option TimeVal
deriving DecidableEq

/-- SearchFilters from src/types.ts (the fields the engine consumes). -/
structure SearchFilters where
  environment : Option String := none
  timeRange : Option (String × String) := none
  timeframe : Option String := none
  severity : Option String := none
  service : Option String := none
  message : Option String := none
  limit : Option Nat := none
  sortByFrequency : Bool := false
deriving DecidableEq

/-- ElasticsearchEnvironmentConfig from src/types.ts (connection settings). -/
structure EnvironmentConfig where
  node : String
  apiKey : Option String := none
  username : Option String := none
  password : Option String := none
deriving DecidableEq

/-- TeamConfig from src/types.ts. -/
structure TeamConfig where
  teamId : String
  teamName : String
  defaultEnvironment : Option String := none
  environments : List (String × EnvironmentConfig) := []
  indexPatternsExceptions : List String := []
  indexPatternsApplications : List String := []
  indexPatternsLogs : Option (List String) := none
  maxSearchResults : Option Nat := none
  allowedOperations : Option (List String) := none
deriving DecidableEq

/-- The teams table of MultiTeamConfig, as an association list. -/
abbrev TeamsMap := List (String × TeamConfig)

/-- ConfigManager.getTeamConfig: look the team up, throw when absent. -/
def getTeamConfigE (teams : TeamsMap) (teamId : String) : Except String TeamConfig :=
  match teams.lookup teamId with
  | some tc => .ok tc
  | none => .error ("Team " ++ teamId ++ " not found")

/-- JavaScript `a || b` on an optional string: `undefined` and the empty
string are falsy. -/
def jsOrElse (a : Option String) (b : Option String) : Option String :=
  match a with
  | some s => if s = "" then b else some s
  | none => b

/-- ElasticsearchService.getClient, up to the point where the environment
configuration is resolved (client construction and caching are I/O). -/
def getClientResolve (teams : TeamsMap) (teamId : String) (environment : Option String) :
    Except String EnvironmentConfig :=
  match getTeamConfigE teams teamId with
  | .error msg => .error msg
  | .ok tc =>
    match jsOrElse environment tc.defaultEnvironment with
    | none => .error ("No environment specified and no default environment for team " ++ teamId)
    | some env =>
      if env = "" then
        .error ("No environment specified and no default environment for team " ++ teamId)
      else
        match tc.environments.lookup env with
        | none => .error ("Environment " ++ env ++ " not found for team " ++ teamId)
        | some envCfg => .ok envCfg

/-- The timeframe-to-hours object lookup used by searchFrequentExceptions,
searchExceptionsByContext, analyzeSpecificException and
getServiceExceptionTrends; a missing key falls back to 24 via `|| 24`. -/
def timeframeHours (timeframe : String) : Nat :=
  if timeframe = "1h" then 1
  else if timeframe = "6h" then 6
  else if timeframe = "12h" then 12
  else if timeframe = "24h" then 24
  else if timeframe = "7d" then 168
  else 24

/-- Time filter built by ElasticsearchService.searchExceptions: a verbatim
range when `filters.timeRange` is given, else a lower bound of
`subDays(now, 1)` with no upper bound.  `filters.timeframe` is not consulted
on this path. -/
def searchExceptionsTimeFilter (nowMs : Int) (filters : SearchFilters) : TimeRangeFilter :=
  match filters.timeRange with
  | some se => { gte := .verbatim se.1, lte := some (.verbatim se.2) }
  | none => { gte := .instant (subDaysMs nowMs 1), lte := none }

/-- Time filter built by ElasticsearchService.analyzeExceptions: default is
`subDays(now, 7)`. -/
def analyzeExceptionsTimeFilter (nowMs : Int) (filters : SearchFilters) : TimeRangeFilter :=
  match filters.timeRange with
  | some se => { gte := .verbatim se.1, lte := some (.verbatim se.2) }
  | none => { gte := .instant (subDaysMs nowMs 7), lte := none }

/-- Time filter built by ElasticsearchService.searchLogs: default is
`subDays(now, 0.04)` (the literal 0.04 denotes 4/100 of a day), which the
source comments as roughly one hour. -/
def searchLogsTimeFilter (nowMs : Int) (filters : SearchFilters) : TimeRangeFilter :=
  match filters.timeRange with
  | some se => { gte := .verbatim se.1, lte := some (.verbatim se.2) }
  | none => { gte := .instant (subDaysMs nowMs (4 / 100 : ℚ)), lte := none }

/-- Time filter built by the timeframe-driven methods
(searchFrequentExceptions and friends): lower bound `now - hours * 3600000`,
upper bound `now`. -/
def timeframeTimeFilter (nowMs : Int) (timeframe : String) : TimeRangeFilter :=
  { gte := .instant (nowMs - timeframeHours timeframe * 3600000),
    lte := some (.instant nowMs) }

/-- The `size` sent with searchExceptions and searchLogs queries:
`teamConfig.maxSearchResults || 50` (0 and undefined are falsy). -/
def searchExceptionsSize (tc : TeamConfig) : Nat :=
  match tc.maxSearchResults with
  | some n => if n = 0 then 50 else n
  | none => 50

/-- The normalized record a hit is mapped to (ElasticsearchSearchResult,
restricted to the fields the claims are about; `id` is the dedup key). -/
structure SearchResult where
  id : String
  index : String := ""
  timestamp : String := ""
  message : String := ""
deriving DecidableEq

/-- The parts of the query document sent by searchExceptions that are under
scrutiny here: the time filter and the requested size. -/
structure EsQuerySpec where
  timeFilter : TimeRangeFilter
  size : Nat
deriving DecidableEq

/-- ElasticsearchService.searchExceptions: resolve the team configuration and
the client, build the query, execute it and hand the mapped hits straight
back.  The store round trip is abstracted as a function of the built query;
the hit list it returns is NOT truncated by this method. -/
def searchExceptionsService (teams : TeamsMap) (teamId : String) (filters : SearchFilters)
    (nowMs : Int) (store : EsQuerySpec → Except String (List SearchResult)) :
    Except String (List SearchResult) :=
  match getTeamConfigE teams teamId with
  | .error msg => .error msg
  | .ok tc =>
    match getClientResolve teams teamId filters.environment with
    | .error msg => .error msg
    | .ok _envCfg =>
      let q : EsQuerySpec :=
        { timeFilter := searchExceptionsTimeFilter nowMs filters
          size := searchExceptionsSize tc }
      match store q with
      | .error e => .error ("Failed to search exceptions: " ++ e)
      | .ok hits => .ok hits

/-- ElasticsearchService.determineTrend.  Buckets are represented by their
doc_count values.  The JavaScript source divides by firstHalfAvg without a
zero guard: with non-negative counts, IEEE division by zero makes change
+Infinity when secondHalfAvg is positive (so change > 10 holds) and NaN when
both averages are zero (so neither threshold comparison holds); the first
branch below is the image of that behavior. -/
def determineTrend (timeDistribution : List Nat) : String :=
  if timeDistribution.length < 2 then "stable"
  else
    let firstHalf := timeDistribution.take (timeDistribution.length / 2)
    let secondHalf := timeDistribution.drop (timeDistribution.length / 2)
    let firstHalfAvg : ℚ := (firstHalf.sum : ℚ) / (firstHalf.length : ℚ)
    let secondHalfAvg : ℚ := (secondHalf.sum : ℚ) / (secondHalf.length : ℚ)
    if firstHalfAvg = 0 then
      if secondHalfAvg > 0 then "increasing" else "stable"
    else
      let change : ℚ := (secondHalfAvg - firstHalfAvg) / firstHalfAvg * 100
      if change > 10 then "increasing"
      else if change < -10 then "decreasing"
      else "stable"

/-- Modelled from the words of the spec: the trend classification rule of
trendByService, a pure function of the percentage change. -/
def classifyTrendSpec (change : ℚ) : String :=
  if change > 10 then "increasing"
  else if change < -10 then "decreasing"
  else "stable"

/-- Modelled from the words of the spec: percentage change of trendByService,
`(secondHalfCount - firstHalfCount) / firstHalfCount * 100` when
`firstHalfCount > 0`, else 0. -/
def pctChangeSpec (firstHalfCount secondHalfCount : Nat) : ℚ :=
  if firstHalfCount > 0 then
    ((secondHalfCount : ℚ) - (firstHalfCount : ℚ)) / (firstHalfCount : ℚ) * 100
  else 0

/-- Modelled from the words of the spec: trendOverTime as the claim states
it, with the percentage-change rule of trendByService (first half average
zero gives change 0, hence stable). -/
def trendOverTimeClaimed (buckets : List Nat) : String :=
  if buckets.length < 2 then "stable"
  else
    let fh := buckets.take (buckets.length / 2)
    let sh := buckets.drop (buckets.length / 2)
    let a1 : ℚ := (fh.sum : ℚ) / (fh.length : ℚ)
    let a2 : ℚ := (sh.sum : ℚ) / (sh.length : ℚ)
    classifyTrendSpec (if a1 > 0 then (a2 - a1) / a1 * 100 else 0)

/-- The claim amended by what the counterexample forces: when the first half
average is zero the source classifies a positive second half as increasing
(IEEE +Infinity) and an all-zero sequence as stable (NaN); everything else is
as claimed. -/
def trendOverTimeAmendedSpec (buckets : List Nat) : String :=
  if buckets.length < 2 then "stable"
  else
    let fh := buckets.take (buckets.length / 2)
    let sh := buckets.drop (buckets.length / 2)
    let a1 : ℚ := (fh.sum : ℚ) / (fh.length : ℚ)
    let a2 : ℚ := (sh.sum : ℚ) / (sh.length : ℚ)
    if a1 > 0 then classifyTrendSpec ((a2 - a1) / a1 * 100)
    else if a2 > 0 then "increasing"
    else "stable"

/-- Math.round: floor of the argument plus one half (JavaScript rounds ties
toward positive infinity). -/
def jsMathRound (q : ℚ) : Int :=
  (q + 1 / 2).floor

/-- One `services` aggregation bucket consumed by getServiceExceptionTrends. -/
structure ServiceBucket where
  key : String
  firstHalfCount : Nat
  secondHalfCount : Nat
  totalCount : Nat
  topExceptions : List (String × Nat)
deriving DecidableEq

/-- The record getServiceExceptionTrends pushes for a service. -/
structure ServiceExceptionTrend where
  service : String
  exceptionCount : Nat
  trend : String
  percentageChange : Int
  topExceptions : List (String × Nat)
deriving DecidableEq

/-- ElasticsearchService.getServiceExceptionTrends, post-processing of the
aggregation buckets (lines 834-858 of the service). -/
def serviceTrendRecords (buckets : List ServiceBucket) : List ServiceExceptionTrend :=
  buckets.map fun b =>
    let percentageChange : ℚ :=
      if b.firstHalfCount > 0 then
        ((b.secondHalfCount : ℚ) - (b.firstHalfCount : ℚ)) / (b.firstHalfCount : ℚ) * 100
      else 0
    let trend : String :=
      if percentageChange > 10 then "increasing"
      else if percentageChange < -10 then "decreasing"
      else "stable"
    { service := b.key
      exceptionCount := b.totalCount
      trend := trend
      percentageChange := jsMathRound percentageChange
      topExceptions := b.topExceptions }

/-- The stop-word set of extractKeyTerms. -/
def stopWords : List String :=
  ["the", "is", "at", "of", "on", "in", "to", "for", "and", "or", "but", "be",
   "been", "have", "has", "had", "do", "does", "did", "will", "would",
   "should", "could", "can", "may", "might", "must", "shall"]

/-- JavaScript regex \w: ASCII letters, digits and underscore. -/
def isWordChar (c : Char) : Bool :=
  (('a' ≤ c && c ≤ 'z') || ('A' ≤ c && c ≤ 'Z') || ('0' ≤ c && c ≤ '9') || c = '_')

/-- JavaScript regex \s, restricted to the ASCII whitespace characters. -/
def isSpaceChar (c : Char) : Bool :=
  (c = ' ' || c = '\t' || c = '\n' || c = '\r' || c = '\x0b' || c = '\x0c')

/-- String.prototype.toLowerCase restricted to ASCII. -/
def jsToLower (c : Char) : Char :=
  if 'A' ≤ c && c ≤ 'Z' then Char.ofNat (c.toNat + 32) else c

/-- replace(non-word non-space characters, one space). -/
def normalizeChar (c : Char) : Char :=
  if isWordChar c || isSpaceChar c then c else ' '

/-- split on runs of whitespace.  The JavaScript split(\s+) can additionally
emit empty fragments at the ends of the string; those have length 0 and are
removed by the very next filter (length > 2) in extractKeyTerms, so dropping
them during tokenization is extensionally faithful. -/
def tokenizeWs : List Char → List Char → List String
  | [], cur => if cur.isEmpty then [] else [String.mk cur.reverse]
  | c :: cs, cur =>
    if isSpaceChar c then
      if cur.isEmpty then tokenizeWs cs []
      else String.mk cur.reverse :: tokenizeWs cs []
    else tokenizeWs cs (c :: cur)

/-- Keep the first occurrence of every key, in order: the Map-based
deduplication of the smart-search handler and the indexOf-based
deduplication of extractKeyTerms. -/
def dedupByFirst {α : Type} (key : α → String) : List String → List α → List α
  | _, [] => []
  | seen, x :: xs =>
    if key x ∈ seen then dedupByFirst key seen xs
    else x :: dedupByFirst key (key x :: seen) xs

/-- extractKeyTerms from the smart-search tool (part of
search-exceptions-tool): lower-case, strip punctuation to spaces, split on
whitespace, keep terms longer than 2 that are not stop words, deduplicate
keeping first occurrences, take the first 5. -/
def extractKeyTerms (message : String) : List String :=
  let processed := (message.data.map jsToLower).map normalizeChar
  let terms := tokenizeWs processed []
  let filtered := terms.filter fun t => t.length > 2 && !(stopWords.contains t)
  (dedupByFirst (fun t => t) [] filtered).take 5

/-- The message variants issued by the smart-search strategies: exact quoted
phrase, joined key terms (when any), and the first key term longer than 4
characters (when any). -/
def smartSearchMessages (searchTerm : String) : List String :=
  let keyTerms := extractKeyTerms searchTerm
  let importantWords := keyTerms.filter fun t => t.length > 4
  ["\"" ++ searchTerm ++ "\""]
    ++ (if keyTerms.isEmpty then [] else [String.intercalate " " keyTerms])
    ++ (match importantWords with
        | [] => []
        | w :: _ => [w])

/-- The fulfilled strategy outcomes, in strategy-list order
(Promise.allSettled keeps input order, independent of completion order). -/
def successResults (outcomes : List (Except String (List SearchResult))) :
    List (List SearchResult) :=
  outcomes.filterMap fun o =>
    match o with
    | .ok rs => some rs
    | .error _ => none

/-- The smart-search merge (lines 138-152 of the tool): walk the fulfilled
results in strategy order, insert each record into the map unless its id is
already present, then truncate the insertion-ordered values to the limit. -/
def combineStrategyResults (outcomes : List (Except String (List SearchResult)))
    (limit : Nat) : List SearchResult :=
  (dedupByFirst (fun r => r.id) [] (successResults outcomes).flatten).take limit

/-- The envelope a tool handler produces: either the error envelope of the
catch block (isError true), or one of the tool-specific success payloads. -/
inductive ToolResult
  | failure (errorMessage : String)
  | searchSuccess (teamId : String) (environment : Option String) (results : List SearchResult)
  | connectionSuccess (teamId : String) (environment : Option String) (connected : Bool)
deriving DecidableEq

/-- The allowed-operations gate shared by the search and analysis tools:
denied when allowedOperations is set and does not contain the name. -/
def opDenied (tc : TeamConfig) (opName : String) : Bool :=
  match tc.allowedOperations with
  | some ops => !(ops.contains opName)
  | none => false

/-- Surfacing of the awaited service call inside the catch block: a thrown
error becomes the error envelope, a value becomes the success payload. -/
def handleProceed : Except String ToolResult → ToolResult
  | .error msg => .failure msg
  | .ok r => r

/-- createSearchExceptionsHandler: team lookup, allowed-operations gate on
search_exceptions, then the service call (abstracted as `proceed`, the
already-awaited outcome of everything after the gate). -/
def searchExceptionsToolRun (teams : TeamsMap) (teamId : String)
    (proceed : Except String ToolResult) : ToolResult :=
  match getTeamConfigE teams teamId with
  | .error msg => .failure msg
  | .ok tc =>
    if opDenied tc "search_exceptions" then
      .failure ("Operation search_exceptions not allowed for team " ++ teamId)
    else handleProceed proceed

/-- createSearchLogsHandler: same shape, gate on search_logs. -/
def searchLogsToolRun (teams : TeamsMap) (teamId : String)
    (proceed : Except String ToolResult) : ToolResult :=
  match getTeamConfigE teams teamId with
  | .error msg => .failure msg
  | .ok tc =>
    if opDenied tc "search_logs" then
      .failure ("Operation search_logs not allowed for team " ++ teamId)
    else handleProceed proceed

/-- createAnalyzeExceptionHandler: same shape, gate on analyze_exception. -/
def analyzeExceptionToolRun (teams : TeamsMap) (teamId : String)
    (proceed : Except String ToolResult) : ToolResult :=
  match getTeamConfigE teams teamId with
  | .error msg => .failure msg
  | .ok tc =>
    if opDenied tc "analyze_exception" then
      .failure ("Operation analyze_exception not allowed for team " ++ teamId)
    else handleProceed proceed

/-- createAnalyzeTrendsHandler: same shape, gate on analyze_trends. -/
def analyzeTrendsToolRun (teams : TeamsMap) (teamId : String)
    (proceed : Except String ToolResult) : ToolResult :=
  match getTeamConfigE teams teamId with
  | .error msg => .failure msg
  | .ok tc =>
    if opDenied tc "analyze_trends" then
      .failure ("Operation analyze_trends not allowed for team " ++ teamId)
    else handleProceed proceed

/-- ElasticsearchService.testConnection: every throw inside the try block
(including the configuration errors of getClient) is caught and turned into
false; otherwise the boolean ping response is compared with true. -/
def testConnectionService (teams : TeamsMap) (teamId : String)
    (environment : Option String) (ping : Except String Bool) : Bool :=
  match getClientResolve teams teamId environment with
  | .error _ => false
  | .ok _ =>
    match ping with
    | .error _ => false
    | .ok b => b

/-- createTestConnectionHandler: team lookup (a throw here is caught by the
handler and becomes the error envelope), then - with no allowed-operations
gate - the connection test, whose boolean is reported in a success
envelope. -/
def testConnectionToolHandler (teams : TeamsMap) (teamId : String)
    (environment : Option String) (ping : Except String Bool) : ToolResult :=
  match getTeamConfigE teams teamId with
  | .error msg => .failure msg
  | .ok tc =>
    .connectionSuccess teamId (jsOrElse environment tc.defaultEnvironment)
      (testConnectionService teams teamId environment ping)

/-- A production-only environment table used by the concrete scenarios. -/
def alphaEnvironments : List (String × EnvironmentConfig) :=
  [("production", { node := "https://alpha-prod-es.company.com" })]

/-- A tenant with a production default, a result cap of 50 and no
allowed-operations restriction. -/
def alphaTeam : TeamConfig :=
  { teamId := "team-alpha"
    teamName := "Team Alpha"
    defaultEnvironment := some "production"
    environments := alphaEnvironments
    indexPatternsExceptions := ["exceptions-*"]
    indexPatternsApplications := ["apps-*"]
    maxSearchResults := some 50 }

/-- The same tenant with an allowed-operations list that permits nothing. -/
def restrictedTeam : TeamConfig :=
  { alphaTeam with allowedOperations := some [] }

/-- A one-tenant configuration around alphaTeam. -/
def alphaTeams : TeamsMap := [("team-alpha", alphaTeam)]

/-- A one-tenant configuration around restrictedTeam. -/
def restrictedTeams : TeamsMap := [("team-alpha", restrictedTeam)]

/-- Two distinct records used as store output in concrete scenarios. -/
def recA : SearchResult := { id := "a" }

/-- Second record of the concrete store output. -/
def recB : SearchResult := { id := "b" }


theorem jsMathTrunc_one : jsMathTrunc (1 : ℚ) = 1 := by
  rw [jsMathTrunc]; decide

theorem jsMathTrunc_seven : jsMathTrunc (7 : ℚ) = 7 := by
  rw [jsMathTrunc]; decide

theorem jsMathTrunc_four_hundredths : jsMathTrunc (4 / 100 : ℚ) = 0 := by
  have h : ((4 : ℚ) / 100) = mkRat 4 100 := by norm_num [Rat.mkRat_eq_div]
  rw [jsMathTrunc, h]; decide

/-- C2: in ElasticsearchService.searchExceptions a supplied timeframe with no
timeRange is ignored: the built filter is always the default 24-hour lower
bound with no upper bound, never the claimed window [now - duration, now].
The duration map of the claim lives only in the timeframe-driven analysis
methods, whose filter is also computed here for contrast. -/
theorem searchExceptions_timeframe_ignored :
    ∀ (now : Int) (tf : String),
      searchExceptionsTimeFilter now { timeframe := some tf } =
        { gte := .instant (now - 86400000), lte := none } ∧
      searchExceptionsTimeFilter now { timeframe := some "1h" } ≠
        { gte := .instant (now - 3600000), lte := some (.instant now) } ∧
      timeframeTimeFilter now "1h" =
        { gte := .instant (now - 3600000), lte := some (.instant now) } ∧
      timeframeTimeFilter now "6h" =
        { gte := .instant (now - 6 * 3600000), lte := some (.instant now) } ∧
      timeframeTimeFilter now "12h" =
        { gte := .instant (now - 12 * 3600000), lte := some (.instant now) } ∧
      timeframeTimeFilter now "24h" =
        { gte := .instant (now - 24 * 3600000), lte := some (.instant now) } ∧
      timeframeTimeFilter now "7d" =
        { gte := .instant (now - 168 * 3600000), lte := some (.instant now) } ∧
      timeframeTimeFilter now "2h" =
        { gte := .instant (now - 24 * 3600000), lte := some (.instant now) } := by
  intro now tf
  refine ⟨?_, ?_, ?_, ?_, ?_, ?_, ?_, ?_⟩ <;>
    simp [searchExceptionsTimeFilter, timeframeTimeFilter, timeframeHours,
      subDaysMs, jsMathTrunc_one]

/-- C3: with neither timeRange nor timeframe, searchExceptions defaults to a
24-hour lower bound and analyzeExceptions to a 7-day lower bound, as
claimed; but searchLogs defaults to subDays(now, 0.04), whose truncated
day count is 0, so the lower bound is now itself and not one hour ago. -/
theorem default_time_windows :
    ∀ (now : Int),
      searchExceptionsTimeFilter now {} =
        { gte := .instant (now - 86400000), lte := none } ∧
      analyzeExceptionsTimeFilter now {} =
        { gte := .instant (now - 7 * 86400000), lte := none } ∧
      searchLogsTimeFilter now {} = { gte := .instant now, lte := none } ∧
      searchLogsTimeFilter now {} ≠
        { gte := .instant (now - 3600000), lte := none } := by
  intro now
  refine ⟨?_, ?_, ?_, ?_⟩
  · simp [searchExceptionsTimeFilter, subDaysMs, jsMathTrunc_one]
  · simp [analyzeExceptionsTimeFilter, subDaysMs, jsMathTrunc_seven]
  · simp [searchLogsTimeFilter, subDaysMs, jsMathTrunc_four_hundredths]
  · simp [searchLogsTimeFilter, subDaysMs, jsMathTrunc_four_hundredths,
      TimeRangeFilter.mk.injEq, TimeVal.instant.injEq]
    omega

/-- C1: the size sent to the store by searchExceptions is
maxSearchResults or 50, not min(limit, maxSearchResults): with a requested
limit of 1 and a tenant cap of 50 the query size is 50, and the two store
hits come back with no truncation, exceeding the requested limit. -/
theorem searchExceptions_size_ignores_limit :
    ∀ (now : Int),
      searchExceptionsSize alphaTeam = 50 ∧
      min 1 (searchExceptionsSize alphaTeam) = 1 ∧
      searchExceptionsSize alphaTeam ≠ min 1 (searchExceptionsSize alphaTeam) ∧
      searchExceptionsService alphaTeams "team-alpha" { limit := some 1 } now
          (fun _q => .ok [recA, recB]) = .ok [recA, recB] ∧
      [recA, recB].length > 1 := by
  intro now
  exact ⟨rfl, rfl, by decide, rfl, by decide⟩

/-- C4 counterexample: on the bucket sequence [0, 5] the source classifies
increasing (the unguarded division by the zero first-half average yields
+Infinity), while the claimed rule (change 0 when the first half average is
0) classifies stable. -/
theorem determineTrend_zero_first_half_counterexample :
    determineTrend [0, 5] = "increasing" ∧ trendOverTimeClaimed [0, 5] = "stable" := by
  constructor
  · norm_num [determineTrend]
  · norm_num [trendOverTimeClaimed, classifyTrendSpec]

/-- C4 amended: determineTrend returns stable below 2 buckets, splits the
sequence at floor(length / 2) (the second half receiving the extra bucket on
odd length), averages the halves and classifies by the >10 and <-10
thresholds - but when the first half average is 0 the result is increasing
whenever the second half average is positive, and stable only when it is
also 0. -/
theorem determineTrend_eq_amended :
    ∀ buckets : List Nat, determineTrend buckets = trendOverTimeAmendedSpec buckets := by
  intro buckets
  by_cases h : buckets.length < 2
  · simp [determineTrend, trendOverTimeAmendedSpec, h]
  · simp only [determineTrend, trendOverTimeAmendedSpec, if_neg h]
    have ha1 : (0 : ℚ) ≤
        ((buckets.take (buckets.length / 2)).sum : ℚ) /
          ((buckets.take (buckets.length / 2)).length : ℚ) := by positivity
    generalize hA1 :
        ((buckets.take (buckets.length / 2)).sum : ℚ) /
          ((buckets.take (buckets.length / 2)).length : ℚ) = a1
    generalize
        ((buckets.drop (buckets.length / 2)).sum : ℚ) /
          ((buckets.drop (buckets.length / 2)).length : ℚ) = a2
    rw [hA1] at ha1
    by_cases h0 : a1 = 0
    · simp [h0]
    · have hpos : (0 : ℚ) < a1 := lt_of_le_of_ne ha1 (Ne.symm h0)
      simp [h0, hpos, classifyTrendSpec]

/-- C7: every record produced by the service-trend post-processing carries
the claimed percentage change (the guarded formula), the claimed rounding,
and the claimed threshold classification; the boundary changes 10 and -10
classify as stable, and the rounding is to within one half of the exact
change. -/
theorem serviceTrendRecords_match_spec :
    (∀ buckets : List ServiceBucket,
      serviceTrendRecords buckets = buckets.map fun b =>
        { service := b.key
          exceptionCount := b.totalCount
          trend := classifyTrendSpec (pctChangeSpec b.firstHalfCount b.secondHalfCount)
          percentageChange := jsMathRound (pctChangeSpec b.firstHalfCount b.secondHalfCount)
          topExceptions := b.topExceptions }) ∧
    classifyTrendSpec 10 = "stable" ∧
    classifyTrendSpec (-10) = "stable" ∧
    (∀ q : ℚ, |q - (jsMathRound q : ℚ)| ≤ 1 / 2) := by
  refine ⟨?_, ?_, ?_, ?_⟩
  · intro buckets
    simp [serviceTrendRecords, classifyTrendSpec, pctChangeSpec]
  · norm_num [classifyTrendSpec]
  · norm_num [classifyTrendSpec]
  · intro q
    have hfl : jsMathRound q = ⌊q + 1 / 2⌋ := rfl
    have h1 : ((⌊q + 1 / 2⌋ : Int) : ℚ) ≤ q + 1 / 2 := Int.floor_le _
    have h2 : q + 1 / 2 < (⌊q + 1 / 2⌋ : Int) + 1 := Int.lt_floor_add_one _
    rw [hfl, abs_le]
    constructor <;> push_cast at h1 h2 ⊢ <;> linarith

theorem mem_of_mem_dedupByFirst {α : Type} (key : α → String) :
    ∀ (l : List α) (seen : List String) (x : α),
      x ∈ dedupByFirst key seen l → x ∈ l := by
  intro l
  induction l with
  | nil => intro seen x hx; simp [dedupByFirst] at hx
  | cons y ys ih =>
    intro seen x hx
    rw [dedupByFirst] at hx
    by_cases hk : key y ∈ seen
    · simp only [if_pos hk] at hx
      exact List.mem_cons_of_mem _ (ih _ _ hx)
    · simp only [if_neg hk, List.mem_cons] at hx
      rcases hx with rfl | hx
      · exact List.mem_cons_self _ _
      · exact List.mem_cons_of_mem _ (ih _ _ hx)

theorem key_notin_seen_of_mem_dedupByFirst {α : Type} (key : α → String) :
    ∀ (l : List α) (seen : List String) (x : α),
      x ∈ dedupByFirst key seen l → key x ∉ seen := by
  intro l
  induction l with
  | nil => intro seen x hx; simp [dedupByFirst] at hx
  | cons y ys ih =>
    intro seen x hx
    rw [dedupByFirst] at hx
    by_cases hk : key y ∈ seen
    · simp only [if_pos hk] at hx
      exact ih _ _ hx
    · simp only [if_neg hk, List.mem_cons] at hx
      rcases hx with rfl | hx
      · exact hk
      · have h2 := ih _ _ hx
        intro hmem
        exact h2 (List.mem_cons_of_mem _ hmem)

theorem nodup_keys_dedupByFirst {α : Type} (key : α → String) :
    ∀ (l : List α) (seen : List String),
      ((dedupByFirst key seen l).map key).Nodup := by
  intro l
  induction l with
  | nil => intro seen; simp [dedupByFirst]
  | cons y ys ih =>
    intro seen
    rw [dedupByFirst]
    by_cases hk : key y ∈ seen
    · simp only [if_pos hk]
      exact ih _
    · simp only [if_neg hk, List.map_cons, List.nodup_cons]
      refine ⟨?_, ih _⟩
      intro hmem
      rcases List.mem_map.mp hmem with ⟨x, hx, hkey⟩
      have := key_notin_seen_of_mem_dedupByFirst key ys (key y :: seen) x hx
      exact this (by rw [hkey]; exact List.mem_cons_self _ _)

theorem head_filter_of_mem_dedupByFirst {α : Type} (key : α → String) :
    ∀ (l : List α) (seen : List String) (x : α),
      x ∈ dedupByFirst key seen l →
      (l.filter fun y => key y == key x).head? = some x := by
  intro l
  induction l with
  | nil => intro seen x hx; simp [dedupByFirst] at hx
  | cons y ys ih =>
    intro seen x hx
    rw [dedupByFirst] at hx
    by_cases hk : key y ∈ seen
    · simp only [if_pos hk] at hx
      have hne : (key y == key x) = false := by
        have hx2 := key_notin_seen_of_mem_dedupByFirst key ys seen x hx
        simp only [beq_eq_false_iff_ne, ne_eq]
        intro heq
        exact hx2 (heq ▸ hk)
      rw [List.filter_cons_of_neg (by simp [hne])]
      exact ih _ _ hx
    · simp only [if_neg hk, List.mem_cons] at hx
      rcases hx with rfl | hx
      · rw [List.filter_cons_of_pos (by simp)]
        rfl
      · have hx2 := key_notin_seen_of_mem_dedupByFirst key ys (key y :: seen) x hx
        have hne : (key y == key x) = false := by
          simp only [beq_eq_false_iff_ne, ne_eq]
          intro heq
          exact hx2 (heq ▸ List.mem_cons_self _ _)
        rw [List.filter_cons_of_neg (by simp [hne])]
        exact ih _ _ hx

/-- C5: the merged smart-search output never exceeds the limit, carries
pairwise distinct record ids, and every merged record is the first record
bearing its id in the concatenation of the fulfilled strategy results taken
in strategy-list order (so the instance of the earliest strategy wins). -/
theorem combineStrategyResults_merge_spec :
    ∀ (outcomes : List (Except String (List SearchResult))) (limit : Nat),
      (combineStrategyResults outcomes limit).length ≤ limit ∧
      ((combineStrategyResults outcomes limit).map (fun r => r.id)).Nodup ∧
      ∀ r ∈ combineStrategyResults outcomes limit,
        ((successResults outcomes).flatten.filter
            fun y => y.id == r.id).head? = some r := by
  intro outcomes limit
  refine ⟨?_, ?_, ?_⟩
  · rw [combineStrategyResults, List.length_take]
    exact min_le_left _ _
  · rw [combineStrategyResults, List.map_take]
    exact (List.take_sublist _ _).nodup
      (nodup_keys_dedupByFirst (fun s : SearchResult => s.id) _ [])
  · intro r hr
    rw [combineStrategyResults] at hr
    exact head_filter_of_mem_dedupByFirst (fun s : SearchResult => s.id) _ []
      r (List.take_subset _ _ hr)

/-- C6: a rejected strategy contributes nothing to the merge - removing it
from the outcome list leaves the merged output unchanged - and when every
issued strategy is rejected the merged output is the empty list (the handler
then reports success with zero results, not an error). -/
theorem combineStrategyResults_failure_tolerance :
    ∀ (pre post outcomes : List (Except String (List SearchResult)))
      (e : String) (limit : Nat),
      combineStrategyResults (pre ++ Except.error e :: post) limit =
        combineStrategyResults (pre ++ post) limit ∧
      ((∀ o ∈ outcomes, ∃ msg, o = Except.error msg) →
        combineStrategyResults outcomes limit = []) := by
  intro pre post outcomes e limit
  constructor
  · rw [combineStrategyResults, combineStrategyResults, successResults, successResults]
    rw [List.filterMap_append, List.filterMap_append, List.filterMap_cons]
  · intro hall
    rw [combineStrategyResults]
    have hnil : successResults outcomes = [] := by
      rw [successResults, List.filterMap_eq_nil_iff]
      intro o ho
      rcases hall o ho with ⟨msg, rfl⟩
      rfl
    rw [hnil]
    simp [dedupByFirst]

theorem smartSearch_failure_witness :
    combineStrategyResults
        [Except.error "timeout1", Except.error "timeout2", Except.error "timeout3"] 20 = [] ∧
    combineStrategyResults [Except.ok [recA], Except.error "timeout1", Except.ok [recB]] 20 =
      combineStrategyResults [Except.ok [recA], Except.ok [recB]] 20 := by
  constructor
  · refine (combineStrategyResults_failure_tolerance [] [] _ "x" 20).2 ?_
    intro o ho
    simp only [List.mem_cons, List.not_mem_nil, or_false] at ho
    rcases ho with rfl | rfl | rfl
    · exact ⟨"timeout1", rfl⟩
    · exact ⟨"timeout2", rfl⟩
    · exact ⟨"timeout3", rfl⟩
  · exact (combineStrategyResults_failure_tolerance
      [Except.ok [recA]] [Except.ok [recB]] [] "timeout1" 20).1

theorem tokenizeWs_chars (P : Char → Prop) :
    ∀ (l cur : List Char),
      (∀ c ∈ l, isSpaceChar c = false → P c) →
      (∀ c ∈ cur, P c) →
      ∀ t ∈ tokenizeWs l cur, ∀ c ∈ t.data, P c := by
  intro l
  induction l with
  | nil =>
    intro cur _hl hcur t ht c hc
    by_cases hce : cur.isEmpty
    · simp [tokenizeWs, hce] at ht
    · simp only [tokenizeWs, hce, Bool.false_eq_true, if_false,
        List.mem_singleton] at ht
      subst ht
      have : (String.mk cur.reverse).data = cur.reverse := rfl
      rw [this] at hc
      exact hcur c (List.mem_reverse.mp hc)
  | cons c0 cs ih =>
    intro cur hl hcur t ht c hc
    rw [tokenizeWs] at ht
    by_cases hsp : isSpaceChar c0
    · simp only [if_pos hsp] at ht
      by_cases hce : cur.isEmpty
      · simp only [if_pos hce] at ht
        exact ih [] (fun d hd => hl d (List.mem_cons_of_mem _ hd))
          (by simp) t ht c hc
      · simp only [if_neg hce, List.mem_cons] at ht
        rcases ht with rfl | ht
        · have : (String.mk cur.reverse).data = cur.reverse := rfl
          rw [this] at hc
          exact hcur c (List.mem_reverse.mp hc)
        · exact ih [] (fun d hd => hl d (List.mem_cons_of_mem _ hd))
            (by simp) t ht c hc
    · simp only [if_neg hsp] at ht
      refine ih (c0 :: cur) (fun d hd => hl d (List.mem_cons_of_mem _ hd)) ?_ t ht c hc
      intro d hd
      rcases List.mem_cons.mp hd with rfl | hd
      · exact hl d (List.mem_cons_self _ _) (by simpa using hsp)
      · exact hcur d hd

/-- C8: key-term extraction returns at most 5 pairwise distinct terms, each
longer than 2 characters, none a stop word, each made only of word
characters (punctuation stripped); on the NullPointerException sentence the
result drops the stop words the and to, keeps nullpointerexception first,
and lower-cases everything (the hyphen of user-service is stripped into a
token break, and null is cut by the 5-term cap). -/
theorem extractKeyTerms_spec :
    (∀ m : String,
      (extractKeyTerms m).length ≤ 5 ∧
      (extractKeyTerms m).Nodup ∧
      ∀ t ∈ extractKeyTerms m,
        2 < t.length ∧ stopWords.contains t = false ∧
        ∀ c ∈ t.data, isWordChar c = true) ∧
    extractKeyTerms "NullPointerException: the request to user-service returned null" =
      ["nullpointerexception", "request", "user", "service", "returned"] ∧
    "the" ∉ extractKeyTerms
        "NullPointerException: the request to user-service returned null" ∧
    "to" ∉ extractKeyTerms
        "NullPointerException: the request to user-service returned null" := by
  refine ⟨?_, ?_, ?_, ?_⟩
  · intro m
    refine ⟨?_, ?_, ?_⟩
    · rw [extractKeyTerms, List.length_take]
      exact min_le_left _ _
    · have h1 := nodup_keys_dedupByFirst (fun t : String => t)
        ((tokenizeWs ((m.data.map jsToLower).map normalizeChar) []).filter
          fun t => t.length > 2 && !(stopWords.contains t)) []
      rw [List.map_id'] at h1
      exact (List.take_sublist _ _).nodup h1
    · intro t ht
      rw [extractKeyTerms] at ht
      have hdedup := List.take_subset _ _ ht
      have hfil := mem_of_mem_dedupByFirst (fun t : String => t) _ [] t hdedup
      have hmem := List.mem_of_mem_filter hfil
      have hprop := List.of_mem_filter hfil
      simp only [Bool.and_eq_true, decide_eq_true_eq, Bool.not_eq_true',
        gt_iff_lt] at hprop
      refine ⟨hprop.1, hprop.2, ?_⟩
      refine tokenizeWs_chars (fun c => isWordChar c = true)
        ((m.data.map jsToLower).map normalizeChar) [] ?_ (by simp) t hmem
      intro c hc hsp
      rcases List.mem_map.mp hc with ⟨c0, _hc0, rfl⟩
      rw [normalizeChar] at hsp ⊢
      by_cases hw : isWordChar c0 || isSpaceChar c0
      · rw [if_pos hw] at hsp ⊢
        rcases Bool.or_eq_true_iff.mp hw with h | h
        · exact h
        · rw [h] at hsp
          exact absurd hsp (by simp)
      · rw [if_neg hw] at hsp
        exact absurd hsp (by decide)
  · decide
  · decide
  · decide

/-- C9 counterexample: for a tenant whose allowedOperations list is empty,
the connection-test tool does not fail with a not-permitted error: it
returns the success envelope, and its outcome still depends on the store
ping, so the store is consulted. -/
theorem testConnection_no_gate_counterexample :
    testConnectionToolHandler restrictedTeams "team-alpha" none (Except.ok true) =
      ToolResult.connectionSuccess "team-alpha" (some "production") true ∧
    testConnectionToolHandler restrictedTeams "team-alpha" none (Except.ok true) ≠
      testConnectionToolHandler restrictedTeams "team-alpha" none (Except.ok false) := by
  exact ⟨rfl, by decide⟩

/-- C9 amended: the four search and analysis tools fail with the
not-permitted envelope - independently of the store interaction - whenever
allowedOperations is set and lacks their operation name, and proceed
untouched when allowedOperations is unset; the connection-test tool carries
no such gate and always proceeds to the connection test. -/
theorem allowedOperations_gate_amended (teams : TeamsMap) (teamId : String)
    (tc : TeamConfig) (h : getTeamConfigE teams teamId = .ok tc) :
    (∀ (ops : List String) (p p' : Except String ToolResult),
      tc.allowedOperations = some ops → ops.contains "search_exceptions" = false →
      searchExceptionsToolRun teams teamId p =
        .failure ("Operation search_exceptions not allowed for team " ++ teamId) ∧
      searchExceptionsToolRun teams teamId p = searchExceptionsToolRun teams teamId p') ∧
    (∀ (ops : List String) (p p' : Except String ToolResult),
      tc.allowedOperations = some ops → ops.contains "search_logs" = false →
      searchLogsToolRun teams teamId p =
        .failure ("Operation search_logs not allowed for team " ++ teamId) ∧
      searchLogsToolRun teams teamId p = searchLogsToolRun teams teamId p') ∧
    (∀ (ops : List String) (p p' : Except String ToolResult),
      tc.allowedOperations = some ops → ops.contains "analyze_exception" = false →
      analyzeExceptionToolRun teams teamId p =
        .failure ("Operation analyze_exception not allowed for team " ++ teamId) ∧
      analyzeExceptionToolRun teams teamId p = analyzeExceptionToolRun teams teamId p') ∧
    (∀ (ops : List String) (p p' : Except String ToolResult),
      tc.allowedOperations = some ops → ops.contains "analyze_trends" = false →
      analyzeTrendsToolRun teams teamId p =
        .failure ("Operation analyze_trends not allowed for team " ++ teamId) ∧
      analyzeTrendsToolRun teams teamId p = analyzeTrendsToolRun teams teamId p') ∧
    (∀ p : Except String ToolResult, tc.allowedOperations = none →
      searchExceptionsToolRun teams teamId p = handleProceed p ∧
      searchLogsToolRun teams teamId p = handleProceed p ∧
      analyzeExceptionToolRun teams teamId p = handleProceed p ∧
      analyzeTrendsToolRun teams teamId p = handleProceed p) ∧
    (∀ (env : Option String) (ping : Except String Bool),
      testConnectionToolHandler teams teamId env ping =
        .connectionSuccess teamId (jsOrElse env tc.defaultEnvironment)
          (testConnectionService teams teamId env ping)) := by
  refine ⟨?_, ?_, ?_, ?_, ?_, ?_⟩
  · intro ops p p' hops hno
    have hmem : "search_exceptions" ∉ ops := by simpa using hno
    constructor <;> simp [searchExceptionsToolRun, h, opDenied, hops, hmem]
  · intro ops p p' hops hno
    have hmem : "search_logs" ∉ ops := by simpa using hno
    constructor <;> simp [searchLogsToolRun, h, opDenied, hops, hmem]
  · intro ops p p' hops hno
    have hmem : "analyze_exception" ∉ ops := by simpa using hno
    constructor <;> simp [analyzeExceptionToolRun, h, opDenied, hops, hmem]
  · intro ops p p' hops hno
    have hmem : "analyze_trends" ∉ ops := by simpa using hno
    constructor <;> simp [analyzeTrendsToolRun, h, opDenied, hops, hmem]
  · intro p hnone
    refine ⟨?_, ?_, ?_, ?_⟩ <;>
      simp [searchExceptionsToolRun, searchLogsToolRun, analyzeExceptionToolRun,
        analyzeTrendsToolRun, h, opDenied, hnone]
  · intro env ping
    simp [testConnectionToolHandler, h]

theorem allowedOperations_gate_amended_witness :
    searchExceptionsToolRun restrictedTeams "team-alpha"
        (Except.ok (ToolResult.searchSuccess "team-alpha" (some "production") [])) =
      ToolResult.failure "Operation search_exceptions not allowed for team team-alpha" ∧
    testConnectionToolHandler restrictedTeams "team-alpha" none (Except.ok false) =
      ToolResult.connectionSuccess "team-alpha" (some "production") false := by
  have h := allowedOperations_gate_amended restrictedTeams "team-alpha" restrictedTeam rfl
  constructor
  · exact (h.1 [] _ (Except.ok (ToolResult.failure "x")) rfl rfl).1
  · exact h.2.2.2.2.2 none (Except.ok false)

/-- C10 counterexample: the tenant alphaTeam has no environment named
staging, so resolving a connection for it is a configuration error; yet the
connection-test operation completes with the non-error envelope
connected = false instead of failing. -/
theorem testConnection_swallows_config_error_counterexample :
    getClientResolve alphaTeams "team-alpha" (some "staging") =
      .error "Environment staging not found for team team-alpha" ∧
    testConnectionToolHandler alphaTeams "team-alpha" (some "staging") (Except.ok true) =
      ToolResult.connectionSuccess "team-alpha" (some "staging") false := by
  exact ⟨rfl, rfl⟩

/-- C10 amended: a configuration error (unknown tenant, unknown environment,
or no resolvable environment) is fatal to search operations, and an unknown
tenant is fatal to the connection-test tool as well; but an environment
resolution failure inside the connection test is swallowed: testConnection
returns false and the tool completes with a success envelope reporting
connected = false. -/
theorem configuration_error_fatality_amended :
    (∀ (teams : TeamsMap) (teamId : String) (filters : SearchFilters) (now : Int)
      (store : EsQuerySpec → Except String (List SearchResult)) (e : String),
      getClientResolve teams teamId filters.environment = .error e →
      ∃ e2, searchExceptionsService teams teamId filters now store = .error e2) ∧
    (∀ (teams : TeamsMap) (teamId : String) (env : Option String)
      (ping : Except String Bool) (e : String),
      getClientResolve teams teamId env = .error e →
      testConnectionService teams teamId env ping = false) ∧
    (∀ (teams : TeamsMap) (teamId : String) (env : Option String)
      (ping : Except String Bool) (msg : String),
      getTeamConfigE teams teamId = .error msg →
      testConnectionToolHandler teams teamId env ping = .failure msg) ∧
    (∀ (teams : TeamsMap) (teamId : String) (tc : TeamConfig) (env : Option String)
      (ping : Except String Bool) (e : String),
      getTeamConfigE teams teamId = .ok tc →
      getClientResolve teams teamId env = .error e →
      testConnectionToolHandler teams teamId env ping =
        .connectionSuccess teamId (jsOrElse env tc.defaultEnvironment) false) := by
  refine ⟨?_, ?_, ?_, ?_⟩
  · intro teams teamId filters now store e h
    match h1 : getTeamConfigE teams teamId with
    | .error msg => exact ⟨msg, by simp [searchExceptionsService, h1]⟩
    | .ok tc => exact ⟨e, by simp [searchExceptionsService, h1, h]⟩
  · intro teams teamId env ping e h
    simp [testConnectionService, h]
  · intro teams teamId env ping msg h
    simp [testConnectionToolHandler, h]
  · intro teams teamId tc env ping e h1 h
    simp [testConnectionToolHandler, h1, testConnectionService, h]

theorem configuration_error_fatality_amended_witness :
    testConnectionService alphaTeams "team-alpha" (some "staging") (Except.ok true) = false ∧
    (∃ e2, searchExceptionsService alphaTeams "team-alpha"
        { environment := some "staging" } 0 (fun _q => .ok [recA]) = .error e2) := by
  constructor
  · exact configuration_error_fatality_amended.2.1 alphaTeams "team-alpha"
      (some "staging") (Except.ok true)
      "Environment staging not found for team team-alpha" rfl
  · exact configuration_error_fatality_amended.1 alphaTeams "team-alpha"
      { environment := some "staging" } 0 (fun _q => .ok [recA])
      "Environment staging not found for team team-alpha" rfl
